import Mathlib

/-!
Verification development for the survey statistics engine of
`tech_industry_mental_health_analysis` (`src/utilities.py`).

The pandas code is shallowly embedded over plain Lean lists:

* a long-format survey table is a `List SurveyRow` (one row per
  respondent/question/answer/wave);
* a generic numeric data frame (used by `find_outliers`) is a list of named
  columns of `Option ℚ` values, `none` standing for a missing (NaN) cell;
* a wide answer matrix (used by `create_correlation_heatmap`) is a list of
  named columns of `MixedCell` values (string, number or null);
* Python floats are modelled as exact rationals; the IEEE non-finite results
  produced by dividing by zero are modelled by the `PyNum` type with explicit
  `inf` / `neginf` / `nan` constructors and IEEE-754 propagation rules;
* the only irrational operation, `np.sqrt` inside the confidence half-width,
  is kept symbolic: a `CIExpr` `⟨k, r⟩` denotes the real number `k * √r`
  (and a NaN whenever `r` is negative, `neginf` or `nan`), and theorems about
  the real value use `Real.sqrt` directly;
* chart rendering (seaborn/matplotlib calls) is presentation only and out of
  scope; each embedded component returns the derived table the renderer
  would consume.
-/

/-! ## Generic list helpers (embedding pandas primitives) -/

/-- Append `x` to `acc` unless it is already present.  This is the embedding
of the `if value not in outliers_list: outliers_list.append(value)` idiom and
of first-occurrence de-duplication (`Series.unique`). -/
def insertNew [DecidableEq α] (acc : List α) (x : α) : List α :=
  if x ∈ acc then acc else acc ++ [x]

/-- Accumulate every element of `l` into `acc`, skipping duplicates. -/
def insertNewAll [DecidableEq α] (acc l : List α) : List α :=
  l.foldl insertNew acc

/-- First-occurrence de-duplication, as `pandas.Series.unique` performs. -/
def uniqueList [DecidableEq α] (l : List α) : List α :=
  insertNewAll [] l

/-- Stable insertion into a sorted list: `x` is placed before the first
element `y` with `le x y`. -/
def insertSorted (le : α → α → Bool) (x : α) : List α → List α
  | [] => [x]
  | y :: ys => if le x y then x :: y :: ys else y :: insertSorted le x ys

/-- Stable insertion sort, the embedding of pandas' stable `sort_values`. -/
def sortedBy (le : α → α → Bool) : List α → List α
  | [] => []
  | x :: xs => insertSorted le x (sortedBy le xs)

/-! ## Data model -/

/-- One row of the long-format survey table (`SurveyRecord` in the spec):
respondent id, question id, answer text (`none` = NaN) and survey wave. -/
structure SurveyRow where
  userID : Nat
  questionID : Int
  answerText : Option String
  surveyID : Int
deriving DecidableEq, Repr

/-- The long-format survey table. -/
abbrev SurveyTable := List SurveyRow

/-- A generic numeric data frame: named columns of possibly-missing
rationals, as `find_outliers` consumes. -/
structure NumTable where
  cols : List (String × List (Option ℚ))
deriving DecidableEq, Repr

/-! ## Outlier Detector (`find_outliers`, utilities.py lines 21-59) -/

/-- Python `int(...)` applied to a float: truncation toward zero. -/
def pyInt (q : ℚ) : Int :=
  if 0 ≤ q then q.floor else q.ceil

/-- The non-missing values of a column, in row order (comparisons with NaN
are false in pandas, so missing cells never reach the outlier filter). -/
def nonNull (col : List (Option ℚ)) : List ℚ :=
  col.filterMap id

/-- `Series.quantile` with the default linear interpolation: sort the
non-missing values, let `h = p·(n−1)`, and interpolate between the values at
positions `⌊h⌋` and `⌊h⌋+1`.  Only meaningful for a nonempty list. -/
def quantile (xs : List ℚ) (p : ℚ) : ℚ :=
  let s := sortedBy (fun a b => decide (a ≤ b)) xs
  let h : ℚ := p * ((s.length : ℚ) - 1)
  let i : Nat := h.floor.toNat
  let lo := s.getD i 0
  let hi := s.getD (i + 1) lo
  lo + (h - (i : ℚ)) * (hi - lo)

/-- Lower IQR fence `Q1 − 1.5·IQR` of a column's non-missing values. -/
def lowerBound (col : List (Option ℚ)) : ℚ :=
  let nn := nonNull col
  let q1 := quantile nn (1/4)
  let q3 := quantile nn (3/4)
  q1 - 3/2 * (q3 - q1)

/-- Upper IQR fence `Q3 + 1.5·IQR` of a column's non-missing values. -/
def upperBound (col : List (Option ℚ)) : ℚ :=
  let nn := nonNull col
  let q1 := quantile nn (1/4)
  let q3 := quantile nn (3/4)
  q3 + 3/2 * (q3 - q1)

/-- The per-feature outlier list: values strictly outside the fences, then
`Series.unique` (first occurrence), then `int(...)` truncation.  When the
column has no non-missing value the quantiles are NaN in pandas and every
comparison is false, so no value is flagged. -/
def outliersOfFeature (col : List (Option ℚ)) : List Int :=
  if nonNull col = [] then []
  else
    ((uniqueList ((nonNull col).filter
        (fun x => x < lowerBound col ∨ x > upperBound col))).map pyInt)

/-- One iteration of the `for feature in features` loop of `find_outliers`:
a feature that is not a column is reported and skipped, leaving the
accumulated list unchanged; a valid feature's unique truncated outliers are
accumulated without re-adding values already recorded. -/
def outlierStep (df : NumTable) (acc : List Int) (f : String) : List Int :=
  match df.cols.lookup f with
  | none => acc
  | some col => insertNewAll acc (outliersOfFeature col)

/-- Embedding of `find_outliers`: fold the per-feature loop body over the
requested features, starting from the empty accumulated list. -/
def find_outliers (df : NumTable) (features : List String) : List Int :=
  features.foldl (outlierStep df) []

/-! ## Distribution Aggregator (`create_gender_barplot`, lines 95-114) -/

/-- The `(SurveyID, AnswerText)` pairs of the rows answering question `q`
with a non-null answer, in row order.  `groupby` drops null keys, which is
why null answers are excluded here. -/
def rowsFor (df : SurveyTable) (q : Int) : List (Int × String) :=
  (df.filter (fun r => r.questionID = q)).filterMap
    (fun r => r.answerText.map (fun a => (r.surveyID, a)))

/-- Code-point comparison of char lists (how pandas orders strings). -/
def charListLe : List Char → List Char → Bool
  | [], _ => true
  | _ :: _, [] => false
  | a :: as, b :: bs =>
    if a.toNat < b.toNat then true
    else if b.toNat < a.toNat then false
    else charListLe as bs

/-- Code-point string comparison. -/
def strLe (a b : String) : Bool :=
  charListLe a.data b.data

/-- Lexicographic order on `(SurveyID, AnswerText)`, the sort key of
`sort_values(by=["SurveyID", "AnswerText"])`. -/
def pairLe (a b : Int × String) : Bool :=
  decide (a.1 < b.1) || (decide (a.1 = b.1) && strLe a.2 b.2)

/-- `groupby(["SurveyID", "AnswerText"]).size()` followed by the sort:
each distinct pair with the number of rows carrying it. -/
def gender_counts (df : SurveyTable) : List ((Int × String) × Nat) :=
  sortedBy (fun a b => pairLe a.1 b.1)
    ((uniqueList (rowsFor df 2)).map (fun p => (p, (rowsFor df 2).count p)))

/-- `groupby("SurveyID")["Count"].transform("sum")`: the total count of the
partition key `sid` over the grouped table. -/
def keyTotal (df : SurveyTable) (sid : Int) : Nat :=
  (((gender_counts df).filter (fun g => g.1.1 = sid)).map (fun g => g.2)).sum

/-- A row of the derived DistributionTable. -/
structure DistRow where
  surveyID : Int
  answerText : String
  count : Nat
  percentage : ℚ
deriving DecidableEq, Repr

/-- The DistributionTable derived by `create_gender_barplot`:
`Percentage = Count / (sum of Count within the same SurveyID) * 100`. -/
def gender_distribution (df : SurveyTable) : List DistRow :=
  (gender_counts df).map
    (fun g => ⟨g.1.1, g.1.2, g.2, (g.2 : ℚ) / (keyTotal df g.1.1 : ℚ) * 100⟩)

/-! ## Pivoted Trend Builder (`create_lineplot`, lines 147-183)

`df_counts.pivot_table(index="SurveyID", columns="AnswerText",
values="Count", aggfunc="sum")` is called without `fill_value`, so a
`(SurveyID, AnswerText)` combination with no rows pivots to a missing (NaN)
cell, not to 0.  The subsequent `df_pivoted.div(df_pivoted.sum(axis=1),
axis=0) * 100` sums each row with NaN skipped and leaves missing cells
missing. -/

/-- The row index of the pivot: the distinct survey waves, ascending. -/
def pivotIndex (df : SurveyTable) (q : Int) : List Int :=
  sortedBy (fun a b => decide (a ≤ b)) (uniqueList ((rowsFor df q).map Prod.fst))

/-- The column index of the pivot: the distinct answer categories,
ascending. -/
def pivotCols (df : SurveyTable) (q : Int) : List String :=
  sortedBy strLe (uniqueList ((rowsFor df q).map Prod.snd))

/-- One cell of the un-normalized pivot: the grouped count when the
combination occurs, a missing cell otherwise. -/
def pivotCell (df : SurveyTable) (q : Int) (sid : Int) (cat : String) :
    Option Nat :=
  let c := (rowsFor df q).count (sid, cat)
  if c = 0 then none else some c

/-- `df_pivoted.sum(axis=1)`: the row sum, missing cells skipped. -/
def pivotRowSum (df : SurveyTable) (q : Int) (sid : Int) : Nat :=
  ((pivotCols df q).map (fun cat => (pivotCell df q sid cat).getD 0)).sum

/-- One cell of the normalized pivot (`div` by the row sum, `* 100`):
missing cells stay missing. -/
def pivotPct (df : SurveyTable) (q : Int) (sid : Int) (cat : String) :
    Option ℚ :=
  match pivotCell df q sid cat with
  | none => none
  | some c => some ((c : ℚ) / (pivotRowSum df q sid : ℚ) * 100)

/-- The assembled normalized pivot table for one question id, row-indexed by
ascending survey wave — the derived table `create_lineplot` hands to the
renderer. -/
def pivotPctTable (df : SurveyTable) (q : Int) :
    List (Int × List (String × Option ℚ)) :=
  (pivotIndex df q).map
    (fun sid => (sid, (pivotCols df q).map (fun c => (c, pivotPct df q sid c))))

/-! ## Prevalence Estimator (`create_prevalence_barplot`, lines 186-234) -/

/-- A Python float outcome: a finite rational, `inf`, `-inf` or NaN. -/
inductive PyNum where
  | fin (q : ℚ)
  | inf
  | neginf
  | nan
deriving DecidableEq, Repr

/-- IEEE-754 subtraction, as needed by `1 - rate`. -/
def pySub (a b : PyNum) : PyNum :=
  match a, b with
  | .nan, _ => .nan
  | _, .nan => .nan
  | .fin x, .fin y => .fin (x - y)
  | .fin _, .inf => .neginf
  | .fin _, .neginf => .inf
  | .inf, .fin _ => .inf
  | .neginf, .fin _ => .neginf
  | .inf, .inf => .nan
  | .inf, .neginf => .inf
  | .neginf, .inf => .neginf
  | .neginf, .neginf => .nan

/-- IEEE-754 multiplication. -/
def pyMul (a b : PyNum) : PyNum :=
  match a, b with
  | .nan, _ => .nan
  | _, .nan => .nan
  | .fin x, .fin y => .fin (x * y)
  | .fin x, .inf => if x > 0 then .inf else if x < 0 then .neginf else .nan
  | .fin x, .neginf => if x > 0 then .neginf else if x < 0 then .inf else .nan
  | .inf, .fin y => if y > 0 then .inf else if y < 0 then .neginf else .nan
  | .neginf, .fin y => if y > 0 then .neginf else if y < 0 then .inf else .nan
  | .inf, .inf => .inf
  | .inf, .neginf => .neginf
  | .neginf, .inf => .neginf
  | .neginf, .neginf => .inf

/-- IEEE-754 division (the divisor 0 stands for Python's `+0.0`): a positive
finite number divided by zero is `inf`, zero by zero is NaN — pandas emits
these silently instead of raising. -/
def pyDiv (a b : PyNum) : PyNum :=
  match a, b with
  | .nan, _ => .nan
  | _, .nan => .nan
  | .fin x, .fin y =>
      if y ≠ 0 then .fin (x / y)
      else if x > 0 then .inf else if x < 0 then .neginf else .nan
  | .fin _, .inf => .fin 0
  | .fin _, .neginf => .fin 0
  | .inf, .fin y => if y < 0 then .neginf else .inf
  | .neginf, .fin y => if y < 0 then .inf else .neginf
  | .inf, .inf => .nan
  | .inf, .neginf => .nan
  | .neginf, .inf => .nan
  | .neginf, .neginf => .nan

/-- Whether a Python float outcome is a finite number. -/
def PyNum.isFinite (a : PyNum) : Bool :=
  match a with
  | .fin _ => true
  | _ => false

/-- The symbolic confidence half-width `coeff * √radicand`: `np.sqrt` is
irrational, so the embedding keeps the coefficient outside the square root
(`z * 100`) and the radicand as data.  `np.sqrt` of a negative number,
`-inf` or NaN is NaN. -/
structure CIExpr where
  coeff : ℚ
  radicand : PyNum
deriving DecidableEq, Repr

/-- Whether the confidence half-width evaluates to NaN. -/
def CIExpr.isNaN (e : CIExpr) : Bool :=
  match e.radicand with
  | .fin q => decide (q < 0)
  | .inf => false
  | .neginf => true
  | .nan => true

/-- One record of the derived PrevalenceEstimate table. -/
structure PrevRecord where
  category : String
  count : Nat
  prevalenceRate : PyNum
  percentage : PyNum
  ciPercent : CIExpr
deriving DecidableEq, Repr

/-- The non-null answers to question `q`, in row order
(`df[df["QuestionID"] == q]["AnswerText"]` with nulls dropped by
`value_counts`). -/
def answersTo (df : SurveyTable) (q : Int) : List String :=
  (df.filter (fun r => r.questionID = q)).filterMap (fun r => r.answerText)

/-- `Series.value_counts()`: distinct non-null answers with their
frequencies, stably sorted by descending count (ties keep first-encountered
order). -/
def value_counts (df : SurveyTable) (q : Int) : List (String × Nat) :=
  sortedBy (fun a b => decide (b.2 ≤ a.2))
    ((uniqueList (answersTo df q)).map
      (fun v => (v, (answersTo df q).count v)))

/-- `df[(df["QuestionID"] == q) & (df["SurveyID"] == wave)]["AnswerText"]
.count()`: the number of non-null answers to `q` within wave `wave`. -/
def respondentsCount (df : SurveyTable) (q : Int) (wave : Int) : Nat :=
  ((df.filter (fun r => r.questionID = q ∧ r.surveyID = wave)).filterMap
    (fun r => r.answerText)).length

/-- Embedding of `create_prevalence_barplot`.  The denominator wave (2016),
the number of top categories (`head(3)`) and the confidence multiplier
(`1.6456`) are literals in the source, exactly as written here. -/
def create_prevalence_barplot (df : SurveyTable) (q1 q2 : Int) :
    List PrevRecord :=
  let respondents := respondentsCount df q1 2016
  ((value_counts df q2).take 3).map
    (fun p =>
      let rate := pyDiv (.fin (p.2 : ℚ)) (.fin (respondents : ℚ))
      { category := p.1
        count := p.2
        prevalenceRate := rate
        percentage := pyMul rate (.fin 100)
        ciPercent :=
          ⟨(1.6456 : ℚ) * 100,
           pyDiv (pyMul rate (pySub (.fin 1) rate))
             (.fin (respondents : ℚ))⟩ })

/-- Follows the spec's words (§4.5/§6 configuration surface): the same
estimator with the denominator survey wave, the top-`n` cutoff and the
confidence multiplier `z` as explicit parameters, to be compared with the
source function. -/
def prevalenceEstimatorSpec (df : SurveyTable) (q1 q2 wave : Int)
    (n : Nat) (z : ℚ) : List PrevRecord :=
  let respondents := respondentsCount df q1 wave
  ((value_counts df q2).take n).map
    (fun p =>
      let rate := pyDiv (.fin (p.2 : ℚ)) (.fin (respondents : ℚ))
      { category := p.1
        count := p.2
        prevalenceRate := rate
        percentage := pyMul rate (.fin 100)
        ciPercent :=
          ⟨z * 100,
           pyDiv (pyMul rate (pySub (.fin 1) rate))
             (.fin (respondents : ℚ))⟩ })

/-! ## Answer Coercion and the Correlation Builder
(`text_to_num_mapping`, `create_correlation_heatmap`, lines 9-18, 237-255) -/

/-- The global ordinal mapping table `text_to_num_mapping` (the `None: None`
entry maps a null cell to NaN, which the embedding renders as the null cell
staying null). -/
def text_to_num_mapping : List (String × ℚ) :=
  [("Yes", 1), ("Yes, all of them", 1),
   ("No", 0), ("None of them", 0),
   ("Some did", 1/2), ("Some of them", 1/2), ("Maybe", 1/2)]

/-- A cell of the wide answer matrix: a string, an already-numeric value or
a null (NaN). -/
inductive MixedCell where
  | str (s : String)
  | num (q : ℚ)
  | null
deriving DecidableEq, Repr

/-- The digit-list value of a numeral. -/
def digitsToNat (l : List Char) : Nat :=
  l.foldl (fun a c => a * 10 + (c.toNat - 48)) 0

/-- `pd.to_numeric(_, errors="coerce")` on one string: an optional sign, an
integer part and an optional fractional part; anything else becomes missing
(scientific notation and surrounding whitespace, which the library parser
would also accept, are not modelled — none of the claims depends on them,
and every string the ordinal mapping knows is equally rejected by both
parsers). -/
def parseRat (s : String) : Option ℚ :=
  let cs := s.data
  let sgn : ℚ := if cs.head? = some '-' then -1 else 1
  let cs := if cs.head? = some '-' ∨ cs.head? = some '+' then cs.tail else cs
  let intPart := cs.takeWhile (fun c => c.isDigit)
  let rest := cs.dropWhile (fun c => c.isDigit)
  match rest with
  | [] =>
      if intPart = [] then none
      else some (sgn * (digitsToNat intPart : ℚ))
  | '.' :: frac =>
      if frac.all (fun c => c.isDigit) ∧ (intPart ≠ [] ∨ frac ≠ []) then
        some (sgn * ((digitsToNat intPart : ℚ) +
          (digitsToNat frac : ℚ) / (10 ^ frac.length : ℚ)))
      else none
  | _ => none

/-- `Series.map(text_to_num_mapping)` on one cell: a string that is a key
maps to its ordinal value, everything else maps to NaN. -/
def cellLookup (c : MixedCell) : Option ℚ :=
  match c with
  | .str s => text_to_num_mapping.lookup s
  | _ => none

/-- One cell of `df[col].map(text_to_num_mapping).convert_dtypes()
.fillna(df[col])`: where the mapping produced NaN the original cell is
restored, so unmapped cells (numeric cells included) survive unchanged. -/
def mapFillCell (c : MixedCell) : MixedCell :=
  match cellLookup c with
  | some q => .num q
  | none => c

/-- One cell of `df.apply(pd.to_numeric, errors="coerce")`: numbers pass
through, strings are parsed, parse failures and nulls become missing. -/
def toNumericCell (m : MixedCell) : Option ℚ :=
  match m with
  | .null => none
  | .num q => some q
  | .str s => parseRat s

/-- The two passes of the Correlation Builder on one column: the ordinal
mapping with fallback to the original value, then numeric parsing. -/
def coerceColumn (col : List MixedCell) : List (Option ℚ) :=
  (col.map mapFillCell).map toNumericCell

/-- Whether a cell is already numeric (a number, or a string `to_numeric`
accepts; a null cell stays a NaN under both passes). -/
def cellIsNumeric (c : MixedCell) : Bool :=
  match c with
  | .num _ => true
  | .str s => (parseRat s).isSome
  | .null => true

/-! ## A small store model for the mutation claim

`create_correlation_heatmap` begins with `df = df.copy()` and then assigns
`df[col] = ...` column by column — in-place writes, but on the copy.
`create_lineplot` takes `curr_df = df[...].copy()` and only reads from it.
To make "the caller's table is not mutated" a theorem rather than a
modelling artifact, the two functions are embedded as programs over an
explicit store of tables: allocation appends, `df[col] = v` writes through
the reference, and the caller's table lives at a store index. -/

/-- A wide answer matrix: named columns of mixed cells. -/
abbrev MTable := List (String × List MixedCell)

/-- A store of wide tables; a reference is an index. -/
abbrev MStore := List MTable

/-- Read the table a reference designates. -/
def readM (st : MStore) (r : Nat) : MTable :=
  (st[r]?).getD []

/-- `df.copy()` bound to a fresh name: allocate a new table, returning the
grown store and the fresh reference. -/
def allocM (st : MStore) (t : MTable) : MStore × Nat :=
  (st ++ [t], st.length)

/-- Replace the named column of a table. -/
def setColumn (t : MTable) (name : String) (col : List MixedCell) : MTable :=
  t.map (fun c => if c.1 = name then (c.1, col) else c)

/-- `df[col] = v`: an in-place write through reference `r`. -/
def writeColM (st : MStore) (r : Nat) (name : String)
    (col : List MixedCell) : MStore :=
  st.set r (setColumn (readM st r) name col)

/-- The column of a table by name (missing column reads as empty). -/
def getColumn (t : MTable) (name : String) : List MixedCell :=
  (t.lookup name).getD []

/-- One iteration of the `for col in df.columns` loop of
`create_correlation_heatmap`: `df[col] = df[col].map(text_to_num_mapping)
.convert_dtypes().fillna(df[col])`, an in-place write through reference
`r1`. -/
def coerceColStep (r1 : Nat) (s : MStore) (name : String) : MStore :=
  writeColM s r1 name ((getColumn (readM s r1) name).map mapFillCell)

/-- Embedding of `create_correlation_heatmap` as a store program: copy the
input, run the mapping pass in place on the copy column by column, then
rebind to the numerically parsed table and return the numeric matrix the
correlation is computed from.  (The Pearson correlation and the seaborn
heatmap consume this matrix and are rendering-side, out of the claims'
scope.) -/
def create_correlation_heatmap_prog (st : MStore) (r : Nat) :
    MStore × List (String × List (Option ℚ)) :=
  let t := readM st r
  let st1 := (allocM st t).1
  let r1 := (allocM st t).2
  let names := t.map Prod.fst
  let st2 := names.foldl (coerceColStep r1) st1
  let t2 := readM st2 r1
  (st2, t2.map (fun c => (c.1, c.2.map toNumericCell)))

/-- A store of long-format survey tables for `create_lineplot`. -/
abbrev SStore := List SurveyTable

/-- Read a survey table from the store. -/
def readS (st : SStore) (r : Nat) : SurveyTable :=
  (st[r]?).getD []

/-- One iteration of the `for ax, question_id in zip(axes, questions)` loop
of `create_lineplot`: `curr_df = df[df["QuestionID"] == q].copy()` allocates
a filtered copy, and the normalized pivot table is derived from the copy. -/
def lineplotStep (r : Nat)
    (acc : SStore × List (List (Int × List (String × Option ℚ))))
    (q : Int) : SStore × List (List (Int × List (String × Option ℚ))) :=
  let df := readS acc.1 r
  let curr := df.filter (fun row => row.questionID = q)
  (acc.1 ++ [curr], acc.2 ++ [pivotPctTable curr q])

/-- Embedding of `create_lineplot` as a store program: for each question id
it allocates `curr_df = df[df["QuestionID"] == q].copy()` and derives the
normalized pivot table from the copy, never writing through any existing
reference. -/
def create_lineplot_prog (st : SStore) (r : Nat) (questions : List Int) :
    SStore × List (List (Int × List (String × Option ℚ))) :=
  questions.foldl (lineplotStep r) (st, [])

/-! ## Violin/ordinal comparison path (`create_violin_subplots`,
lines 258-321) -/

/-- One row of the wide, respondent-indexed table the violin path consumes:
a respondent and their answers keyed by question id. -/
structure VRow where
  userID : Nat
  answers : List (Int × Option String)
deriving DecidableEq, Repr

/-- `df.reset_index().melt(id_vars="UserID", value_vars=[q1, q2], ...)`:
the melted `AnswerText` column stacks every respondent's `q1` answer and
then every respondent's `q2` answer. -/
def meltAnswers (df : List VRow) (q1 q2 : Int) : List (Option String) :=
  df.map (fun r => (r.answers.lookup q1).getD none) ++
    df.map (fun r => (r.answers.lookup q2).getD none)

/-- Python `str.isnumeric()`: nonempty and all digits (the exotic Unicode
numerals the library version also accepts are not modelled). -/
def pyIsNumeric (s : String) : Bool :=
  s ≠ "" && s.data.all (fun c => c.isDigit)

/-- `temp_df["AnswerText"].str.isnumeric().all()`: null cells produce NaN
under the `.str` accessor and `.all()` skips them, so the test is that every
non-null answer string is numeric. -/
def allNumeric (col : List (Option String)) : Bool :=
  col.all (fun c =>
    match c with
    | none => true
    | some s => pyIsNumeric s)

/-- The y-axis column the violin path derives from a question pair: when
every answer string in the melted column is numeric it is `pd.to_numeric`
applied cell-wise; otherwise every cell goes through the ordinal mapping,
with no numeric fallback. -/
def violinYColumn (df : List VRow) (q1 q2 : Int) : List (Option ℚ) :=
  let col := meltAnswers df q1 q2
  if allNumeric col then
    col.map (fun c => c.bind parseRat)
  else
    col.map (fun c => c.bind (fun s => text_to_num_mapping.lookup s))

/-! ## Concrete example tables used by counterexamples and witnesses -/

/-- A table with no respondent at all for the denominator question in wave
2016 but one diagnosed respondent for the target question: the prevalence
denominator is 0 there. -/
def zeroDenomTable : SurveyTable := [⟨1, 2, some "Anxiety", 2016⟩]

/-- A table whose reference answers all sit in wave 2015 and whose target
question has four tied categories: it separates the hardcoded wave 2016,
top-3 cutoff and z = 1.6456 from freely chosen parameters. -/
def waveTable : SurveyTable :=
  [⟨1, 1, some "a", 2015⟩, ⟨2, 1, some "a", 2015⟩, ⟨3, 1, some "a", 2015⟩,
   ⟨4, 1, some "a", 2015⟩, ⟨5, 1, some "a", 2015⟩,
   ⟨6, 2, some "W", 2015⟩, ⟨7, 2, some "X", 2015⟩,
   ⟨8, 2, some "Y", 2015⟩, ⟨9, 2, some "Z", 2015⟩]

/-- 100 reference-question respondents in wave 2016 and 30 answers of one
target category: the spec's prevalence-interval test vector. -/
def prevalenceTable : SurveyTable :=
  List.replicate 100 (⟨0, 1, some "x", 2016⟩ : SurveyRow) ++
    List.replicate 30 (⟨0, 2, some "Anxiety", 2016⟩ : SurveyRow)

/-- A table whose question 5 has category "Yes" only in wave 2016 and
category "No" only in wave 2017: the pivot has an absent combination. -/
def sparsePivotTable : SurveyTable :=
  [⟨1, 5, some "Yes", 2016⟩, ⟨2, 5, some "No", 2017⟩]

/-- A numeric frame with one column holding the spec's outlier test vector
`[1,2,3,4,5,100]`. -/
def outlierFrame : NumTable :=
  ⟨[("a", [some 1, some 2, some 3, some 4, some 5, some 100])]⟩

/-- A gender table: one "F" and two "M" answers in wave 2016. -/
def genderTable : SurveyTable :=
  [⟨1, 2, some "F", 2016⟩, ⟨2, 2, some "M", 2016⟩, ⟨3, 2, some "M", 2016⟩]

/-- An already fully numeric wide column. -/
def numericColumn : List MixedCell :=
  [.num 3, .str "1.5", .str "-2", .null]

/-- One respondent answering question 1 with text and question 2 with a
number: the melted violin column is mixed. -/
def mixedViolinTable : List VRow :=
  [⟨1, [(1, some "Yes"), (2, some "5")]⟩]

/-- A one-table store for the correlation-heatmap frame witness. -/
def heatmapStore : MStore := [[("a", [.str "Yes"])]]

/-- A one-table store for the lineplot frame witness. -/
def lineplotStore : SStore := [sparsePivotTable]

/-! # Theorems

First the generic helper lemmas about the embedded pandas primitives, then
one theorem (with witness or counterexample) per claim. -/

theorem insertNewAll_mem [DecidableEq α] (l : List α) :
    ∀ (acc : List α) (v : α), v ∈ insertNewAll acc l ↔ v ∈ acc ∨ v ∈ l := by
  induction l with
  | nil => intro acc v; simp [insertNewAll]
  | cons x xs ih =>
    intro acc v
    show v ∈ insertNewAll (insertNew acc x) xs ↔ _
    rw [ih]
    unfold insertNew
    by_cases hx : x ∈ acc
    · simp only [if_pos hx, List.mem_cons]
      constructor
      · rintro (h | h)
        · exact Or.inl h
        · exact Or.inr (Or.inr h)
      · rintro (h | rfl | h)
        · exact Or.inl h
        · exact Or.inl hx
        · exact Or.inr h
    · simp only [if_neg hx, List.mem_append, List.mem_singleton, List.mem_cons]
      tauto

theorem insertNewAll_nodup [DecidableEq α] (l : List α) :
    ∀ acc : List α, acc.Nodup → (insertNewAll acc l).Nodup := by
  induction l with
  | nil => intro acc h; exact h
  | cons x xs ih =>
    intro acc hacc
    refine ih (insertNew acc x) ?_
    unfold insertNew
    by_cases hx : x ∈ acc
    · simpa [hx] using hacc
    · simp only [if_neg hx]
      exact List.Nodup.append hacc (List.nodup_singleton x)
        (by simpa using fun h => hx h)

theorem uniqueList_mem [DecidableEq α] (l : List α) (v : α) :
    v ∈ uniqueList l ↔ v ∈ l := by
  unfold uniqueList
  rw [insertNewAll_mem]
  simp

theorem uniqueList_nodup [DecidableEq α] (l : List α) : (uniqueList l).Nodup :=
  insertNewAll_nodup l [] List.nodup_nil

theorem insertSorted_mem (le : α → α → Bool) (x v : α) (l : List α) :
    v ∈ insertSorted le x l ↔ v = x ∨ v ∈ l := by
  induction l with
  | nil => simp [insertSorted]
  | cons y ys ih =>
    unfold insertSorted
    by_cases h : le x y
    · simp [h]
    · simp only [if_neg h, List.mem_cons, ih]
      tauto

theorem sortedBy_mem (le : α → α → Bool) (l : List α) (v : α) :
    v ∈ sortedBy le l ↔ v ∈ l := by
  induction l with
  | nil => simp [sortedBy]
  | cons x xs ih =>
    unfold sortedBy
    rw [insertSorted_mem, ih]
    simp

theorem listSum_map_mul (l : List α) (f : α → ℚ) (k : ℚ) :
    (l.map (fun x => f x * k)).sum = (l.map f).sum * k := by
  induction l with
  | nil => simp
  | cons x xs ih => simp [ih, add_mul]

/-- Percentages built by dividing each group count by the total and scaling
by 100 sum to exactly 100 whenever the total is nonzero. -/
theorem sum_div_total (l : List α) (g : α → Nat)
    (hT : (l.map g).sum ≠ 0) :
    (l.map (fun x =>
      ((g x : ℚ)) / (((l.map g).sum : Nat) : ℚ) * 100)).sum = 100 := by
  have hTQ : (((l.map g).sum : Nat) : ℚ) ≠ 0 := Nat.cast_ne_zero.mpr hT
  have h1 : (l.map (fun x =>
      ((g x : ℚ)) / (((l.map g).sum : Nat) : ℚ) * 100)) =
      l.map (fun x =>
        ((g x : ℚ)) * (100 / (((l.map g).sum : Nat) : ℚ))) := by
    congr 1
    funext x
    ring
  rw [h1, listSum_map_mul]
  have h2 : (l.map (fun x => ((g x : ℚ)))).sum =
      (((l.map g).sum : Nat) : ℚ) := by
    rw [Nat.cast_list_sum, List.map_map]
    rfl
  rw [h2, mul_comm]
  exact div_mul_cancel₀ 100 hTQ

/-! ## Outlier Detector lemmas and claims C6, C7 -/

theorem mem_outliersOfFeature (col : List (Option ℚ)) (v : Int) :
    v ∈ outliersOfFeature col ↔
      ∃ x ∈ nonNull col, (x < lowerBound col ∨ x > upperBound col) ∧
        pyInt x = v := by
  unfold outliersOfFeature
  by_cases h : nonNull col = []
  · simp [h]
  · rw [if_neg h]
    simp only [List.mem_map, uniqueList_mem, List.mem_filter]
    constructor
    · rintro ⟨x, ⟨hx, hout⟩, rfl⟩
      exact ⟨x, hx, by simpa using hout, rfl⟩
    · rintro ⟨x, hx, hout, rfl⟩
      exact ⟨x, ⟨hx, by simpa using hout⟩, rfl⟩

theorem find_outliers_foldl_mem (df : NumTable) (features : List String) :
    ∀ (acc : List Int) (v : Int),
      v ∈ features.foldl (outlierStep df) acc ↔
        v ∈ acc ∨ ∃ f ∈ features, ∃ col, df.cols.lookup f = some col ∧
          v ∈ outliersOfFeature col := by
  induction features with
  | nil => intro acc v; simp
  | cons f fs ih =>
    intro acc v
    rw [List.foldl_cons, ih]
    unfold outlierStep
    cases hf : df.cols.lookup f with
    | none =>
      simp only [List.mem_cons]
      constructor
      · rintro (h | ⟨g, hg, col, hcol, hv⟩)
        · exact Or.inl h
        · exact Or.inr ⟨g, Or.inr hg, col, hcol, hv⟩
      · rintro (h | ⟨g, (rfl | hg), col, hcol, hv⟩)
        · exact Or.inl h
        · rw [hf] at hcol; cases hcol
        · exact Or.inr ⟨g, hg, col, hcol, hv⟩
    | some col =>
      rw [insertNewAll_mem]
      simp only [List.mem_cons]
      constructor
      · rintro ((h | h) | ⟨g, hg, col2, hcol, hv⟩)
        · exact Or.inl h
        · exact Or.inr ⟨f, Or.inl rfl, col, hf, h⟩
        · exact Or.inr ⟨g, Or.inr hg, col2, hcol, hv⟩
      · rintro (h | ⟨g, (rfl | hg), col2, hcol, hv⟩)
        · exact Or.inl (Or.inl h)
        · rw [hf] at hcol
          cases hcol
          exact Or.inl (Or.inr hv)
        · exact Or.inr ⟨g, hg, col2, hcol, hv⟩

theorem find_outliers_foldl_nodup (df : NumTable) (features : List String) :
    ∀ acc : List Int, acc.Nodup →
      (features.foldl (outlierStep df) acc).Nodup := by
  induction features with
  | nil => intro acc h; exact h
  | cons f fs ih =>
    intro acc hacc
    rw [List.foldl_cons]
    refine ih _ ?_
    unfold outlierStep
    cases df.cols.lookup f with
    | none => exact hacc
    | some col => exact insertNewAll_nodup _ _ hacc

/-- Claim C6: for every table and list of requested features,
`find_outliers` returns exactly the truncated values of non-missing entries
falling strictly outside the IQR fences of some requested feature that is a
column of the table (values equal to a fence are not flagged, strictness
being built into the bound comparison), accumulated over all features into
one duplicate-free list. -/
theorem find_outliers_exact_outliers (df : NumTable)
    (features : List String) :
    (∀ v : Int, v ∈ find_outliers df features ↔
      ∃ f ∈ features, ∃ col, df.cols.lookup f = some col ∧
        ∃ x ∈ nonNull col, (x < lowerBound col ∨ x > upperBound col) ∧
          pyInt x = v) ∧
    (find_outliers df features).Nodup := by
  constructor
  · intro v
    unfold find_outliers
    rw [find_outliers_foldl_mem]
    simp only [List.not_mem_nil, false_or]
    constructor
    · rintro ⟨f, hf, col, hcol, hv⟩
      exact ⟨f, hf, col, hcol, (mem_outliersOfFeature col v).mp hv⟩
    · rintro ⟨f, hf, col, hcol, hv⟩
      exact ⟨f, hf, col, hcol, (mem_outliersOfFeature col v).mpr hv⟩
  · exact find_outliers_foldl_nodup df features [] List.nodup_nil

/-- Witness for C6 at a concrete frame: the accumulated outlier list of the
spec test vector is duplicate-free. -/
theorem find_outliers_exact_outliers_witness :
    (find_outliers outlierFrame ["a", "b"]).Nodup :=
  (find_outliers_exact_outliers outlierFrame ["a", "b"]).2

/-- Claim C7: a requested feature that is not a column of the table is
skipped, and the result equals running the detector on the feature list
with the bad name removed. -/
theorem find_outliers_skips_missing_feature (df : NumTable)
    (pre post : List String) (f : String)
    (h : df.cols.lookup f = none) :
    find_outliers df (pre ++ f :: post) = find_outliers df (pre ++ post) := by
  unfold find_outliers
  rw [List.foldl_append, List.foldl_append, List.foldl_cons]
  have hstep : outlierStep df (pre.foldl (outlierStep df) []) f =
      pre.foldl (outlierStep df) [] := by
    unfold outlierStep
    rw [h]
  rw [hstep]

/-- Witness for C7 at a concrete frame: the feature name "b" is not a
column, and dropping it leaves the result unchanged. -/
theorem find_outliers_skips_missing_feature_witness :
    outlierFrame.cols.lookup "b" = none ∧
    find_outliers outlierFrame ["a", "b"] = find_outliers outlierFrame ["a"] :=
  ⟨by decide,
   find_outliers_skips_missing_feature outlierFrame ["a"] [] "b" (by decide)⟩

/-! ## Distribution Aggregator lemmas and claim C8 -/

theorem mem_gender_counts (df : SurveyTable) (g : (Int × String) × Nat) :
    g ∈ gender_counts df ↔
      g.1 ∈ rowsFor df 2 ∧ g.2 = (rowsFor df 2).count g.1 := by
  unfold gender_counts
  rw [sortedBy_mem, List.mem_map]
  constructor
  · rintro ⟨p, hp, rfl⟩
    exact ⟨(uniqueList_mem _ _).mp hp, rfl⟩
  · rintro ⟨h1, h2⟩
    refine ⟨g.1, (uniqueList_mem _ _).mpr h1, ?_⟩
    rw [← h2]

/-- Claim C8: in the DistributionTable derived by the Distribution
Aggregator, the percentages of every partition key occurring in the table
sum to exactly 100 (the embedding computes in exact rationals, so the
floating-point tolerance of the claim is met with slack). -/
theorem gender_distribution_percentages_sum (df : SurveyTable) (sid : Int)
    (h : sid ∈ (gender_distribution df).map DistRow.surveyID) :
    (((gender_distribution df).filter (fun r => r.surveyID = sid)).map
      DistRow.percentage).sum = 100 := by
  have hfm : (gender_distribution df).filter (fun r => r.surveyID = sid) =
      ((gender_counts df).filter (fun g => g.1.1 = sid)).map
        (fun g => (⟨g.1.1, g.1.2, g.2,
          (g.2 : ℚ) / (keyTotal df g.1.1 : ℚ) * 100⟩ : DistRow)) := by
    unfold gender_distribution
    rw [List.filter_map]
    have hp : ((fun r : DistRow => decide (r.surveyID = sid)) ∘
        (fun g : (Int × String) × Nat => (⟨g.1.1, g.1.2, g.2,
          (g.2 : ℚ) / (keyTotal df g.1.1 : ℚ) * 100⟩ : DistRow))) =
        (fun g : (Int × String) × Nat => decide (g.1.1 = sid)) := by
      funext g
      rfl
    rw [hp]
  rw [hfm, List.map_map]
  have hpt : (((gender_counts df).filter (fun g => g.1.1 = sid)).map
      (DistRow.percentage ∘ (fun g => (⟨g.1.1, g.1.2, g.2,
        (g.2 : ℚ) / (keyTotal df g.1.1 : ℚ) * 100⟩ : DistRow)))) =
      ((gender_counts df).filter (fun g => g.1.1 = sid)).map
        (fun g => (g.2 : ℚ) /
          (((((gender_counts df).filter (fun g => g.1.1 = sid)).map
            (fun g => g.2)).sum : Nat) : ℚ) * 100) := by
    apply List.map_congr_left
    intro g hg
    have hsid : g.1.1 = sid := by
      have := (List.mem_filter.mp hg).2
      simpa using this
    simp only [Function.comp]
    rw [hsid]
    rfl
  rw [hpt]
  have hT : (((gender_counts df).filter (fun g => g.1.1 = sid)).map
      (fun g => g.2)).sum ≠ 0 := by
    rw [List.mem_map] at h
    obtain ⟨r, hr, hsid⟩ := h
    unfold gender_distribution at hr
    rw [List.mem_map] at hr
    obtain ⟨g, hg, rfl⟩ := hr
    have hsid2 : g.1.1 = sid := hsid
    have hmem := (mem_gender_counts df g).mp hg
    have hpos : 0 < g.2 := by
      rw [hmem.2]
      exact List.count_pos_iff.mpr hmem.1
    have hgF : g ∈ (gender_counts df).filter (fun g => g.1.1 = sid) := by
      refine List.mem_filter.mpr ⟨hg, ?_⟩
      simpa using hsid2
    intro h0
    have := List.sum_eq_zero_iff.mp h0 g.2 (List.mem_map.mpr ⟨g, hgF, rfl⟩)
    omega
  have hgoal := sum_div_total ((gender_counts df).filter (fun g => g.1.1 = sid))
    (fun g => g.2) hT
  exact hgoal

/-- Witness for C8 at a concrete table: wave 2016 has counts 1 ("F") and 2
("M"), and their percentages sum to 100. -/
theorem gender_distribution_percentages_sum_witness :
    2016 ∈ (gender_distribution genderTable).map DistRow.surveyID ∧
    (((gender_distribution genderTable).filter
      (fun r => r.surveyID = 2016)).map DistRow.percentage).sum = 100 :=
  ⟨by decide,
   gender_distribution_percentages_sum genderTable 2016 (by decide)⟩

/-! ## Pivoted Trend Builder lemmas and claim C2 -/

theorem pivotCell_eq_none_iff (df : SurveyTable) (q sid : Int)
    (cat : String) :
    pivotCell df q sid cat = none ↔ (sid, cat) ∉ rowsFor df q := by
  unfold pivotCell
  by_cases h : (rowsFor df q).count (sid, cat) = 0
  · rw [if_pos h]
    simpa using List.count_eq_zero.mp h
  · rw [if_neg h]
    constructor
    · intro hc
      exact absurd hc (by simp)
    · intro hc
      exact absurd (List.count_eq_zero.mpr hc) h

/-- Counterexample to claim C2 as stated: in the concrete table the 2016 row
and the "No" column both exist in the pivot, yet the (2016, "No") cell of
the normalized pivot is a missing cell, not the value 0 — `pivot_table` is
called without `fill_value=0`. -/
theorem pivot_absent_cell_is_missing :
    2016 ∈ pivotIndex sparsePivotTable 5 ∧
    "No" ∈ pivotCols sparsePivotTable 5 ∧
    pivotPct sparsePivotTable 5 2016 "No" = none := by
  decide

/-- Claim C2 as amended: a (partition key, category) combination absent from
the grouped counts stays a missing cell (it contributes nothing to the row
sum), and each pivot row is normalized so that its non-missing percentages
sum to exactly 100. -/
theorem pivot_rows_normalized (df : SurveyTable) (q sid : Int)
    (h : sid ∈ pivotIndex df q) :
    (((pivotCols df q).map
      (fun cat => (pivotPct df q sid cat).getD 0)).sum = 100) ∧
    (∀ cat : String,
      pivotPct df q sid cat = none ↔ (sid, cat) ∉ rowsFor df q) := by
  constructor
  · have hterm : ∀ cat ∈ pivotCols df q, (pivotPct df q sid cat).getD 0 =
        (((pivotCell df q sid cat).getD 0 : Nat) : ℚ) /
          ((((pivotCols df q).map
            (fun cat => (pivotCell df q sid cat).getD 0)).sum : Nat) : ℚ)
          * 100 := by
      intro cat _
      unfold pivotPct pivotRowSum
      cases hc : pivotCell df q sid cat with
      | none => simp [hc]
      | some c => simp [hc]
    rw [List.map_congr_left hterm]
    have hT : ((pivotCols df q).map
        (fun cat => (pivotCell df q sid cat).getD 0)).sum ≠ 0 := by
      unfold pivotIndex at h
      rw [sortedBy_mem, uniqueList_mem, List.mem_map] at h
      obtain ⟨pr, hpr, hfst⟩ := h
      have hcat : pr.2 ∈ pivotCols df q := by
        unfold pivotCols
        rw [sortedBy_mem, uniqueList_mem, List.mem_map]
        exact ⟨pr, hpr, rfl⟩
      have hcnt : (rowsFor df q).count (sid, pr.2) ≠ 0 := by
        intro h0
        rw [List.count_eq_zero] at h0
        apply h0
        rw [← hfst]
        exact hpr
      have hcell : (pivotCell df q sid pr.2).getD 0 ≠ 0 := by
        unfold pivotCell
        rw [if_neg hcnt]
        simpa using hcnt
      intro h0
      exact hcell (List.sum_eq_zero_iff.mp h0 _
        (List.mem_map.mpr ⟨pr.2, hcat, rfl⟩))
    exact sum_div_total _ (fun cat => (pivotCell df q sid cat).getD 0) hT
  · intro cat
    unfold pivotPct
    rw [← pivotCell_eq_none_iff df q sid cat]
    cases hc : pivotCell df q sid cat with
    | none => simp
    | some c => simp

/-- Witness for the amended C2 at a concrete table: the 2016 row of the
sparse pivot has one present cell and its percentages sum to 100. -/
theorem pivot_rows_normalized_witness :
    2016 ∈ pivotIndex sparsePivotTable 5 ∧
    ((pivotCols sparsePivotTable 5).map
      (fun cat => (pivotPct sparsePivotTable 5 2016 cat).getD 0)).sum = 100 :=
  ⟨by decide, (pivot_rows_normalized sparsePivotTable 5 2016 (by decide)).1⟩

/-! ## Prevalence Estimator lemmas and claims C1, C3, C4 -/

theorem mem_value_counts (df : SurveyTable) (q : Int) (p : String × Nat) :
    p ∈ value_counts df q ↔
      p.1 ∈ answersTo df q ∧ p.2 = (answersTo df q).count p.1 := by
  unfold value_counts
  rw [sortedBy_mem, List.mem_map]
  constructor
  · rintro ⟨v, hv, rfl⟩
    exact ⟨(uniqueList_mem _ _).mp hv, rfl⟩
  · rintro ⟨h1, h2⟩
    refine ⟨p.1, (uniqueList_mem _ _).mpr h1, ?_⟩
    rw [← h2]

/-- Claim C1 (code side): on a table whose reference question has no
non-null answer in wave 2016, `create_prevalence_barplot` raises nothing and
still produces a PrevalenceEstimate record; the division by the zero
denominator silently yields an infinite rate and percentage, and a NaN
confidence half-width (the radicand propagates to `-inf`, whose square root
is NaN).  This contradicts the claim, which demands an explicit domain error
and no records — the code lacks the zero-denominator guard the spec
requires. -/
theorem prevalence_zero_denominator_silent_inf :
    respondentsCount zeroDenomTable 1 2016 = 0 ∧
    (create_prevalence_barplot zeroDenomTable 1 2).map
      (fun r => (r.category, r.count, r.prevalenceRate, r.percentage,
        r.ciPercent.radicand, r.ciPercent.isNaN)) =
      [("Anxiety", 1, PyNum.inf, PyNum.inf, PyNum.neginf, true)] := by
  decide

/-- Counterexample to claim C3 as stated: the source estimator takes only
the table and the two question ids; evaluating it on a table whose
reference answers all live in wave 2015 shows the denominator wave is fixed
at 2016 (all rates come out infinite although wave 2015 has five
respondents), the cutoff is fixed at 3 (four categories yield three
records); the fixed multiplier 1.6456 is exhibited by the amended
theorem, which equates the source function with the parameterized estimator
at z = 1.6456. -/
theorem prevalence_parameters_hardcoded :
    create_prevalence_barplot waveTable 1 2 ≠
      prevalenceEstimatorSpec waveTable 1 2 2015 3 (1.6456 : ℚ) ∧
    (create_prevalence_barplot waveTable 1 2).map
      (fun r => r.prevalenceRate) = [.inf, .inf, .inf] ∧
    (prevalenceEstimatorSpec waveTable 1 2 2015 3 (1.6456 : ℚ)).map
      (fun r => r.prevalenceRate.isFinite) = [true, true, true] ∧
    (create_prevalence_barplot waveTable 1 2).length = 3 ∧
    (prevalenceEstimatorSpec waveTable 1 2 2016 4 (1.6456 : ℚ)).length = 4 := by
  have h1 : (create_prevalence_barplot waveTable 1 2).map
      (fun r => r.prevalenceRate) = [.inf, .inf, .inf] := by decide
  have h2 : (prevalenceEstimatorSpec waveTable 1 2 2015 3 (1.6456 : ℚ)).map
      (fun r => r.prevalenceRate.isFinite) = [true, true, true] := by decide
  refine ⟨?_, h1, h2, by decide, by decide⟩
  intro heq
  have h4 := congrArg (List.map (fun r => r.prevalenceRate.isFinite)) heq
  have h5 : (create_prevalence_barplot waveTable 1 2).map
      (fun r => r.prevalenceRate.isFinite) = [false, false, false] := by
    decide
  rw [h5, h2] at h4
  simp at h4

/-- Claim C3 as amended: the source estimator accepts the table and the
reference/target question ids as its only parameters; the denominator
survey wave, the top-N cutoff and the confidence multiplier are the fixed
constants 2016, 3 and 1.6456, i.e. the source function coincides with the
fully parameterized estimator of the spec applied at exactly those
constants. -/
theorem prevalence_equals_spec_at_constants (df : SurveyTable)
    (q1 q2 : Int) :
    create_prevalence_barplot df q1 q2 =
      prevalenceEstimatorSpec df q1 q2 2016 3 (1.6456 : ℚ) :=
  rfl

/-- Claim C4: with a nonzero denominator, every record of the estimator
carries the raw frequency of its category among the non-null answers to the
target question, `rate = count/denominator`, `percentage = rate·100`, and a
confidence half-width `z·√(rate·(1−rate)/denominator)·100` represented as
the coefficient `1.6456·100` and the radicand `rate·(1−rate)/denominator`. -/
theorem prevalence_formulas (df : SurveyTable) (q1 q2 : Int)
    (h : respondentsCount df q1 2016 ≠ 0) :
    ∀ rec ∈ create_prevalence_barplot df q1 q2,
      rec.count = (answersTo df q2).count rec.category ∧
      0 < rec.count ∧
      rec.prevalenceRate =
        .fin ((rec.count : ℚ) / (respondentsCount df q1 2016 : ℚ)) ∧
      rec.percentage =
        .fin ((rec.count : ℚ) / (respondentsCount df q1 2016 : ℚ) * 100) ∧
      rec.ciPercent =
        ⟨(1.6456 : ℚ) * 100,
         .fin ((rec.count : ℚ) / (respondentsCount df q1 2016 : ℚ) *
           (1 - (rec.count : ℚ) / (respondentsCount df q1 2016 : ℚ)) /
           (respondentsCount df q1 2016 : ℚ))⟩ := by
  intro rec hrec
  unfold create_prevalence_barplot at hrec
  rw [List.mem_map] at hrec
  obtain ⟨p, hp, rfl⟩ := hrec
  have hpv := (mem_value_counts df q2 p).mp (List.mem_of_mem_take hp)
  have hQ : ((respondentsCount df q1 2016 : Nat) : ℚ) ≠ 0 :=
    Nat.cast_ne_zero.mpr h
  have hdiv : pyDiv (.fin (p.2 : ℚ))
      (.fin ((respondentsCount df q1 2016 : Nat) : ℚ)) =
      .fin ((p.2 : ℚ) / ((respondentsCount df q1 2016 : Nat) : ℚ)) := by
    simp only [pyDiv]
    rw [if_pos hQ]
  refine ⟨hpv.2, ?_, ?_, ?_, ?_⟩
  · rw [hpv.2]
    exact List.count_pos_iff.mpr hpv.1
  · show pyDiv (.fin (p.2 : ℚ)) (.fin (respondentsCount df q1 2016 : ℚ)) = _
    exact hdiv
  · show pyMul (pyDiv (.fin (p.2 : ℚ))
      (.fin (respondentsCount df q1 2016 : ℚ))) (.fin 100) = _
    rw [hdiv]
    simp only [pyMul]
  · show (⟨(1.6456 : ℚ) * 100, pyDiv (pyMul
      (pyDiv (.fin (p.2 : ℚ)) (.fin (respondentsCount df q1 2016 : ℚ)))
      (pySub (.fin 1) (pyDiv (.fin (p.2 : ℚ))
        (.fin (respondentsCount df q1 2016 : ℚ)))))
      (.fin (respondentsCount df q1 2016 : ℚ))⟩ : CIExpr) = _
    rw [hdiv]
    simp only [pySub, pyMul, pyDiv]
    rw [if_pos hQ]

/-- Witness for C4 at the spec's test vector: denominator 100, category
count 30, giving rate 3/10, percentage 30, radicand 21/10000, and a real
half-width `1.6456·√(0.3·0.7/100)·100` within 0.01 of 7.54. -/
theorem prevalence_formulas_witness :
    respondentsCount prevalenceTable 1 2016 = 100 ∧
    (∀ rec ∈ create_prevalence_barplot prevalenceTable 1 2,
      rec.count = 30 ∧
      rec.prevalenceRate = .fin (3/10) ∧
      rec.percentage = .fin 30 ∧
      rec.ciPercent.coeff = (1.6456 : ℚ) * 100 ∧
      rec.ciPercent.radicand = .fin (21/10000)) ∧
    |(1.6456 : ℝ) * Real.sqrt (21/10000) * 100 - 7.54| < 1/100 := by
  have hresp : respondentsCount prevalenceTable 1 2016 = 100 := by decide
  refine ⟨hresp, ?_, ?_⟩
  · intro rec hrec
    obtain ⟨hcnt, hpos, hrate, hpct, hci⟩ :=
      prevalence_formulas prevalenceTable 1 2 (by decide) rec hrec
    have hfields : (create_prevalence_barplot prevalenceTable 1 2).map
        (fun r => (r.category, r.count)) = [("Anxiety", 30)] := by decide
    have hmem := List.mem_map_of_mem
      (fun r : PrevRecord => (r.category, r.count)) hrec
    rw [hfields] at hmem
    simp only [List.mem_singleton, Prod.mk.injEq] at hmem
    obtain ⟨hcat, hc30⟩ := hmem
    refine ⟨hc30, ?_, ?_, ?_, ?_⟩
    · rw [hrate, hc30, hresp]
      norm_num
    · rw [hpct, hc30, hresp]
      norm_num
    · rw [hci]
    · rw [hci]
      show PyNum.fin ((rec.count : ℚ) / (respondentsCount prevalenceTable 1
        2016 : ℚ) * (1 - (rec.count : ℚ) / (respondentsCount prevalenceTable
        1 2016 : ℚ)) / (respondentsCount prevalenceTable 1 2016 : ℚ)) = _
      rw [hc30, hresp]
      norm_num
  · have h0 : (0 : ℝ) ≤ 21/10000 := by norm_num
    have hs : Real.sqrt (21/10000) ^ 2 = 21/10000 := Real.sq_sqrt h0
    have hnn : (0 : ℝ) ≤ Real.sqrt (21/10000) := Real.sqrt_nonneg _
    rw [abs_lt]
    constructor
    · nlinarith [hs, hnn]
    · nlinarith [hs, hnn]

/-! ## Answer Coercion lemmas and claim C5 -/

theorem lookup_isSome_mem (l : List (String × ℚ)) (s : String)
    (h : (l.lookup s).isSome = true) : s ∈ l.map Prod.fst := by
  induction l with
  | nil => simp [List.lookup] at h
  | cons a t ih =>
    obtain ⟨k, v⟩ := a
    by_cases hs : s = k
    · simp [hs]
    · have hbeq : (s == k) = false := beq_eq_false_iff_ne.mpr hs
      simp only [List.lookup, hbeq] at h
      simp only [List.map_cons, List.mem_cons]
      exact Or.inr (ih h)

/-- A string that numeric parsing accepts is never a key of the ordinal
mapping (the seven mapped phrasings are all non-numeric). -/
theorem numeric_not_mapped (s : String)
    (h : (parseRat s).isSome = true) :
    text_to_num_mapping.lookup s = none := by
  by_contra hc
  have hsome : (text_to_num_mapping.lookup s).isSome = true := by
    cases hl : text_to_num_mapping.lookup s
    · exact absurd hl hc
    · rfl
  have hk := lookup_isSome_mem _ _ hsome
  simp only [text_to_num_mapping, List.map_cons, List.map_nil,
    List.mem_cons, List.not_mem_nil, or_false] at hk
  rcases hk with rfl | rfl | rfl | rfl | rfl | rfl | rfl <;>
    exact absurd h (by decide)

/-- Claim C5: each cell of the Correlation Builder is looked up in the
ordinal mapping, cells the mapping leaves undefined retain their original
value, the second pass parses every cell numerically with parse failures
becoming missing, and a column whose values are all already numeric passes
through the mapping pass unchanged. -/
theorem correlation_two_pass_coercion (col : List MixedCell)
    (h : ∀ c ∈ col, cellIsNumeric c = true) :
    col.map mapFillCell = col ∧
    coerceColumn col = col.map toNumericCell ∧
    (∀ c : MixedCell, cellLookup c = none → mapFillCell c = c) := by
  have hid : ∀ c ∈ col, mapFillCell c = c := by
    intro c hc
    have hn := h c hc
    cases c with
    | null => rfl
    | num q => rfl
    | str s =>
      have hps : (parseRat s).isSome = true := by
        simpa [cellIsNumeric] using hn
      simp [mapFillCell, cellLookup, numeric_not_mapped s hps]
  refine ⟨?_, ?_, ?_⟩
  · rw [List.map_congr_left hid]
    exact List.map_id col
  · show (col.map mapFillCell).map toNumericCell = col.map toNumericCell
    rw [List.map_congr_left hid]
    simp
  · intro c hlc
    simp [mapFillCell, hlc]

/-- Witness for C5 at a concrete fully numeric column. -/
theorem correlation_two_pass_coercion_witness :
    (∀ c ∈ numericColumn, cellIsNumeric c = true) ∧
    numericColumn.map mapFillCell = numericColumn :=
  ⟨by decide, (correlation_two_pass_coercion numericColumn (by decide)).1⟩

/-! ## Violin/ordinal comparison lemmas and claim C10 -/

/-- A numeric answer string (nonempty, all digits) always parses. -/
theorem pyIsNumeric_parses (s : String) (h : pyIsNumeric s = true) :
    (parseRat s).isSome = true := by
  have hparts : s.data ≠ [] ∧ ∀ c ∈ s.data, c.isDigit = true := by
    unfold pyIsNumeric at h
    simp only [Bool.and_eq_true, List.all_eq_true, decide_eq_true_eq] at h
    refine ⟨?_, h.2⟩
    intro hnil
    exact h.1 (String.ext hnil)
  obtain ⟨hne, hdig⟩ := hparts
  have hh : (s.data.head? = some '-') = False ∧
      (s.data.head? = some '+') = False := by
    cases hcs : s.data with
    | nil => exact absurd hcs hne
    | cons c rest =>
      have hc := hdig c (by rw [hcs]; exact List.mem_cons_self c rest)
      constructor
      · simp only [List.head?, eq_iff_iff, iff_false]
        intro hEq
        rw [Option.some_inj.mp hEq] at hc
        exact absurd hc (by decide)
      · simp only [List.head?, eq_iff_iff, iff_false]
        intro hEq
        rw [Option.some_inj.mp hEq] at hc
        exact absurd hc (by decide)
  have htw : s.data.takeWhile (fun c => c.isDigit) = s.data :=
    List.takeWhile_eq_self_iff.mpr hdig
  have hdw : s.data.dropWhile (fun c => c.isDigit) = [] :=
    List.dropWhile_eq_nil_iff.mpr hdig
  simp only [parseRat, hh.1, hh.2, or_self, if_false, htw, hdw, if_neg hne]
  rfl

/-- Claim C10: the violin path's coercion of a melted answer column is
all-or-nothing — when every non-null answer string is numeric the column is
numerically parsed, and otherwise every cell goes through the ordinal
mapping with no numeric fallback, so a numeric answer (never a mapping key)
becomes missing. -/
theorem violin_all_or_nothing (df : List VRow) (q1 q2 : Int) :
    (allNumeric (meltAnswers df q1 q2) = true →
      violinYColumn df q1 q2 =
        (meltAnswers df q1 q2).map (fun c => c.bind parseRat)) ∧
    (allNumeric (meltAnswers df q1 q2) = false →
      (violinYColumn df q1 q2 =
        (meltAnswers df q1 q2).map
          (fun c => c.bind (fun s => text_to_num_mapping.lookup s))) ∧
      (∀ (i : Nat) (s : String),
        (meltAnswers df q1 q2)[i]? = some (some s) →
        pyIsNumeric s = true →
        (violinYColumn df q1 q2)[i]? = some none)) := by
  constructor
  · intro h
    unfold violinYColumn
    rw [if_pos h]
  · intro h
    have hneg : ¬ (allNumeric (meltAnswers df q1 q2) = true) := by
      simp [h]
    refine ⟨?_, ?_⟩
    · unfold violinYColumn
      rw [if_neg hneg]
    · intro i s hi hnum
      unfold violinYColumn
      rw [if_neg hneg, List.getElem?_map, hi]
      have hlk := numeric_not_mapped s (pyIsNumeric_parses s hnum)
      simp [hlk]

/-- Witness for C10 at a concrete table: the melted column mixes "Yes" with
the numeric answer "5", so the mapping branch is taken and "5" becomes
missing rather than the number 5. -/
theorem violin_all_or_nothing_witness :
    allNumeric (meltAnswers mixedViolinTable 1 2) = false ∧
    (meltAnswers mixedViolinTable 1 2)[1]? = some (some "5") ∧
    pyIsNumeric "5" = true ∧
    (violinYColumn mixedViolinTable 1 2)[1]? = some none := by
  refine ⟨by decide, by decide, by decide, ?_⟩
  exact ((violin_all_or_nothing mixedViolinTable 1 2).2
    (by decide)).2 1 "5" (by decide) (by decide)

/-! ## Store frame lemmas and claim C9 -/

theorem readM_writeColM (st : MStore) (r1 r : Nat) (name : String)
    (col : List MixedCell) (h : r ≠ r1) :
    readM (writeColM st r1 name col) r = readM st r := by
  unfold readM writeColM
  rw [List.getElem?_set_ne (Ne.symm h)]

theorem coerce_fold_frame (names : List String) :
    ∀ (st : MStore) (r1 r : Nat), r ≠ r1 →
      readM (names.foldl (coerceColStep r1) st) r = readM st r := by
  induction names with
  | nil => intro st r1 r _; rfl
  | cons n ns ih =>
    intro st r1 r h
    rw [List.foldl_cons]
    rw [ih _ r1 r h]
    exact readM_writeColM st r1 r n _ h

theorem lineplot_fold_frame (r : Nat) (questions : List Int) :
    ∀ acc : SStore × List (List (Int × List (String × Option ℚ))),
      r < acc.1.length →
      readS ((questions.foldl (lineplotStep r) acc).1) r =
        readS acc.1 r := by
  induction questions with
  | nil => intro acc _; rfl
  | cons q qs ih =>
    intro acc hr
    rw [List.foldl_cons]
    have hstep : readS ((lineplotStep r acc q).1) r = readS acc.1 r := by
      unfold lineplotStep readS
      rw [List.getElem?_append_left hr]
    have hlen : r < ((lineplotStep r acc q).1).length := by
      unfold lineplotStep
      simp only [List.length_append]
      omega
    rw [ih _ hlen, hstep]

/-- Claim C9: neither cited component mutates the caller's input table.
`create_correlation_heatmap` copies the input and performs its column writes
on the copy only, and `create_lineplot` only allocates filtered copies, so
in both store programs the table the caller's reference designates is
unchanged by the call. -/
theorem components_do_not_mutate_input (st : MStore) (r : Nat)
    (h : r < st.length) (st2 : SStore) (r2 : Nat) (h2 : r2 < st2.length)
    (questions : List Int) :
    readM (create_correlation_heatmap_prog st r).1 r = readM st r ∧
    readS (create_lineplot_prog st2 r2 questions).1 r2 = readS st2 r2 := by
  constructor
  · show readM (((readM st r).map Prod.fst).foldl
      (coerceColStep (allocM st (readM st r)).2)
      (allocM st (readM st r)).1) r = readM st r
    unfold allocM
    rw [coerce_fold_frame _ _ _ _ (Nat.ne_of_lt h)]
    unfold readM
    rw [List.getElem?_append_left h]
  · exact lineplot_fold_frame r2 questions (st2, []) h2

/-- Witness for C9 at concrete one-table stores. -/
theorem components_do_not_mutate_input_witness :
    0 < heatmapStore.length ∧ 0 < lineplotStore.length ∧
    readM (create_correlation_heatmap_prog heatmapStore 0).1 0 =
      readM heatmapStore 0 ∧
    readS (create_lineplot_prog lineplotStore 0 [5]).1 0 =
      readS lineplotStore 0 := by
  refine ⟨by decide, by decide, ?_, ?_⟩
  · exact (components_do_not_mutate_input heatmapStore 0 (by decide)
      lineplotStore 0 (by decide) [5]).1
  · exact (components_do_not_mutate_input heatmapStore 0 (by decide)
      lineplotStore 0 (by decide) [5]).2
